import Mathlib

/-!
Verification of the MemGen-AI meme editor.

Shallow embedding of the repository's data model and operations:

* `MemeCaption` — `types.ts` `MemeCaption` (coordinates and font size as `ℚ`,
  the optional `isDragging` flag defaults to `false` as absent does in JS).
* `updateCaption`, `addCaption`, `deleteCaption`, `handleImageEdit`,
  `handleDownload`, `handleShare` — `App.tsx` handlers; React `setState`
  updates are modelled as pure state transformers, and the outcome of each
  awaited collaborator call is an explicit `Except` parameter.
* `exportPos`, `drawCaption`, `drawCaptions` — the caption-drawing part of
  `MemeCanvas.generateMemeBlob`; the 2D context is a record of the style
  fields the code assigns, and each `strokeText`/`fillText` call emits a
  `DrawOp` capturing the context state in force at that call.
* `handleMouseDown`, `handleMouseMove`, `handleMouseUp` — the `MemeCanvas`
  drag handlers; the `forEach` loops over the render-time snapshot that issue
  `onUpdateCaption` requests become folds of `updateCaption` applications.
* `resolveImageInput` and its helpers — `geminiService.ts` image
  normalization, with the network fetch and the canvas fallback as oracles.
-/

/-- JS `String.prototype.startsWith`, as a prefix test on the character
sequence. -/
def jsStartsWith (s pre : String) : Bool :=
  pre.data.isPrefixOf s.data

/-- JS `String.prototype.includes` for a one-character needle. -/
def jsIncludes (s : String) (c : Char) : Bool :=
  s.data.contains c

/-- JS `String.prototype.split` on a one-character separator: every separator
occurrence cuts, empty pieces are kept, and the empty string yields one empty
piece. -/
def jsSplit (sep : Char) (s : String) : List String :=
  (s.data.foldr
      (fun c acc => if c = sep then [] :: acc else (c :: acc.headI) :: acc.tail)
      [[]]).map fun piece => ⟨piece⟩

/-- JS `String.prototype.trim`: strip leading and trailing whitespace. -/
def jsTrim (s : String) : String :=
  ⟨((s.data.dropWhile Char.isWhitespace).reverse.dropWhile Char.isWhitespace).reverse⟩

/-- `types.ts` `MemeCaption`: one text overlay.  `isDragging` is optional in
the source; an absent flag behaves as `false`, which is the default here. -/
structure MemeCaption where
  id : String
  text : String
  x : ℚ
  y : ℚ
  color : String
  fontSize : ℚ
  isDragging : Bool := false
deriving Repr, DecidableEq, Inhabited

/-- A `Partial<MemeCaption>` object: every field optionally present. -/
structure CaptionUpdate where
  id : Option String := none
  text : Option String := none
  x : Option ℚ := none
  y : Option ℚ := none
  color : Option String := none
  fontSize : Option ℚ := none
  isDragging : Option Bool := none
deriving Repr, DecidableEq

/-- The JS spread `{ ...c, ...updates }`: fields present in `updates` win. -/
def applyUpdate (c : MemeCaption) (u : CaptionUpdate) : MemeCaption where
  id := u.id.getD c.id
  text := u.text.getD c.text
  x := u.x.getD c.x
  y := u.y.getD c.y
  color := u.color.getD c.color
  fontSize := u.fontSize.getD c.fontSize
  isDragging := u.isDragging.getD c.isDragging

/-- `App.tsx` `updateCaption`:
`setCaptions(prev => prev.map(c => c.id === id ? { ...c, ...updates } : c))`,
expressed on the captions list. -/
def updateCaption (id : String) (u : CaptionUpdate) (captions : List MemeCaption) :
    List MemeCaption :=
  captions.map fun c => if c.id = id then applyUpdate c u else c

/-- A DOM bounding rectangle as returned by `getBoundingClientRect`. -/
structure Rect where
  left : ℚ
  top : ℚ
  width : ℚ
  height : ℚ
deriving Repr, DecidableEq

/-- The display-to-natural anchor mapping computed inside `generateMemeBlob`
(`MemeCanvas.tsx` lines 43-63): `scale = naturalWidth / imgRect.width`,
`offset = imgRect corner − containerRect corner`,
`(x, y) = ((cap.x − offsetX) * scale, (cap.y − offsetY) * scale)`. -/
def exportPos (naturalWidth : ℚ) (imgRect containerRect : Rect) (cap : MemeCaption) :
    ℚ × ℚ :=
  let scale := naturalWidth / imgRect.width
  let offsetX := imgRect.left - containerRect.left
  let offsetY := imgRect.top - containerRect.top
  ((cap.x - offsetX) * scale, (cap.y - offsetY) * scale)

/-- The style state of the 2D canvas context that `generateMemeBlob`
assigns before its text-drawing calls. -/
structure Ctx where
  font : String
  fillStyle : String
  strokeStyle : String
  lineWidth : ℚ
  shadowColor : String
  shadowBlur : ℚ
  shadowOffsetX : ℚ
  shadowOffsetY : ℚ
deriving Repr, DecidableEq

/-- The context style state of a freshly created 2D canvas. -/
def freshCtx : Ctx where
  font := "10px sans-serif"
  fillStyle := "#000000"
  strokeStyle := "#000000"
  lineWidth := 1
  shadowColor := "rgba(0, 0, 0, 0)"
  shadowBlur := 0
  shadowOffsetX := 0
  shadowOffsetY := 0

/-- One `strokeText`/`fillText` call, recording the context style state in
force when the call was made. -/
structure DrawOp where
  isStroke : Bool
  text : String
  x : ℚ
  y : ℚ
  fillStyle : String
  strokeStyle : String
  lineWidth : ℚ
  shadowColor : String
  shadowBlur : ℚ
  shadowOffsetX : ℚ
  shadowOffsetY : ℚ
deriving Repr, DecidableEq, Inhabited

/-- The body of the `captions.forEach` loop in `generateMemeBlob`
(`MemeCanvas.tsx` lines 57-82): set font/fill/stroke/shadow state, stroke
the text, zero the shadow blur, fill the text.  Returns the updated context
and the two draw calls made. -/
def drawCaption (naturalWidth : ℚ) (imgRect containerRect : Rect) (ctx : Ctx)
    (cap : MemeCaption) : Ctx × List DrawOp :=
  let scale := naturalWidth / imgRect.width
  let p := exportPos naturalWidth imgRect containerRect cap
  let ctx1 : Ctx :=
    { ctx with
      font := "700 " ++ toString (cap.fontSize * scale) ++ "px Oswald"
      fillStyle := cap.color
      strokeStyle := "black"
      lineWidth := 4 * scale
      shadowColor := "rgba(0,0,0,0.8)"
      shadowBlur := 4 * scale
      shadowOffsetX := 0
      shadowOffsetY := 2 * scale }
  let strokeOp : DrawOp :=
    ⟨true, cap.text, p.1, p.2, ctx1.fillStyle, ctx1.strokeStyle, ctx1.lineWidth,
      ctx1.shadowColor, ctx1.shadowBlur, ctx1.shadowOffsetX, ctx1.shadowOffsetY⟩
  let ctx2 : Ctx := { ctx1 with shadowBlur := 0 }
  let fillOp : DrawOp :=
    ⟨false, cap.text, p.1, p.2, ctx2.fillStyle, ctx2.strokeStyle, ctx2.lineWidth,
      ctx2.shadowColor, ctx2.shadowBlur, ctx2.shadowOffsetX, ctx2.shadowOffsetY⟩
  (ctx2, [strokeOp, fillOp])

/-- The caption-drawing pass of `generateMemeBlob`: fold `drawCaption` over
the captions in collection order, starting from a fresh context, collecting
every draw call in order. -/
def drawCaptions (naturalWidth : ℚ) (imgRect containerRect : Rect)
    (captions : List MemeCaption) : Ctx × List DrawOp :=
  captions.foldl
    (fun acc cap =>
      let r := drawCaption naturalWidth imgRect containerRect acc.1 cap
      (r.1, acc.2 ++ r.2))
    (freshCtx, [])

/-- `MemeCanvas.tsx` `handleMouseDown` (the caption-level handler): select the
caption and request `onUpdateCaption(id, { isDragging: true })`.  Only the
captions-list effect is modelled; selection is orthogonal to the drag flag. -/
def handleMouseDown (id : String) (captions : List MemeCaption) : List MemeCaption :=
  updateCaption id { isDragging := some true } captions

/-- `MemeCanvas.tsx` `handleMouseMove`: for each caption of the render-time
snapshot that is dragging, request
`onUpdateCaption(cap.id, { x: clamp(clientX − left, 0, width),
y: clamp(clientY − top, 0, height) })`; the queued functional updates chain,
so the net effect is a fold of `updateCaption` applications over the
snapshot, starting from the snapshot. -/
def handleMouseMove (clientX clientY : ℚ) (containerRect : Rect)
    (captions : List MemeCaption) : List MemeCaption :=
  captions.foldl
    (fun s cap =>
      if cap.isDragging then
        updateCaption cap.id
          { x := some (max 0 (min (clientX - containerRect.left) containerRect.width))
            y := some (max 0 (min (clientY - containerRect.top) containerRect.height)) } s
      else s)
    captions

/-- `MemeCanvas.tsx` `handleMouseUp` (attached globally on `window`): request
`onUpdateCaption(cap.id, { isDragging: false })` for every caption of the
snapshot that is dragging. -/
def handleMouseUp (captions : List MemeCaption) : List MemeCaption :=
  captions.foldl
    (fun s cap =>
      if cap.isDragging then updateCaption cap.id { isDragging := some false } s
      else s)
    captions

/-- `types.ts` `AppState`. -/
inductive AppState where
  | IDLE
  | ANALYZING
  | EDITING
  | ERROR
deriving Repr, DecidableEq

/-- The `App.tsx` component state owned by the orchestrator. -/
structure OrchestratorState where
  currentImage : Option String
  captions : List MemeCaption
  selectedCaptionId : Option String
  appState : AppState
  editPrompt : String
  errorMsg : Option String
deriving Repr, DecidableEq

/-- `App.tsx` `addCaption`: id is `Date.now().toString()` — the clock reading
is an explicit parameter `now`; the new caption is appended and auto-selected. -/
def addCaption (now : ℕ) (text : String) (s : OrchestratorState) : OrchestratorState :=
  let id := toString now
  let newCaption : MemeCaption :=
    { id := id, text := text, x := 300, y := 50, color := "#FFFFFF", fontSize := 32 }
  { s with
    captions := s.captions ++ [newCaption]
    selectedCaptionId := some id }

/-- `App.tsx` `handleImageEdit`: guard on image and non-blank prompt, set
`EDITING` and clear the error, await `editMemeImage` (outcome `result`),
on success install the new image and clear the prompt, on failure set the
error message; `finally` reset the state to `IDLE`. -/
def handleImageEdit (result : Except String String) (s : OrchestratorState) :
    OrchestratorState :=
  if s.currentImage = none ∨ jsTrim s.editPrompt = "" then s
  else
    let s1 := { s with appState := AppState.EDITING, errorMsg := none }
    let s2 :=
      match result with
      | Except.ok newImageBase64 =>
          { s1 with currentImage := some newImageBase64, editPrompt := "" }
      | Except.error _ =>
          { s1 with
            errorMsg := some "Failed to edit image. The prompt might be too complex or blocked." }
    { s2 with appState := AppState.IDLE }

/-- `App.tsx` `handleDownload`: await `generateMemeBlob` (outcome
`blobResult`: `Except.error` for a thrown error, `Except.ok none` for a null
blob, `Except.ok (some b)` for a produced blob); a null blob throws
"Could not generate image", and any caught error sets the error message.
The DOM download side effects carry no orchestrator state. -/
def handleDownload (blobResult : Except Unit (Option String))
    (s : OrchestratorState) : OrchestratorState :=
  match blobResult with
  | Except.ok (some _) => s
  | Except.ok none => { s with errorMsg := some "Failed to download meme." }
  | Except.error _ => { s with errorMsg := some "Failed to download meme." }

/-- `App.tsx` `handleShare`: await `generateMemeBlob`; a null blob throws and
the catch only logs (`console.error("Share failed:", err)`), changing no
state; with a blob, either share natively (`canShare`) or fall back to
`handleDownload`, whose own `generateMemeBlob` call has outcome
`blobResult2`. -/
def handleShare (blobResult blobResult2 : Except Unit (Option String))
    (canShare : Bool) (s : OrchestratorState) : OrchestratorState :=
  match blobResult with
  | Except.ok (some _) =>
      if canShare then s else handleDownload blobResult2 s
  | Except.ok none => s
  | Except.error _ => s

/-- `geminiService.ts` `base64ToGenerativePart`: strip everything up to the
first comma when one is present. -/
def base64ToGenerativePart (base64String : String) : String :=
  if jsIncludes base64String ',' then (jsSplit ',' base64String).getD 1 ""
  else base64String

/-- `geminiService.ts` `fileToGenerativePart`: a `FileReader` read of the
blob, modelled by the data URL `readAsDataURL` would produce; a falsy result
rejects, otherwise the data-URL prefix is split off. -/
def fileToGenerativePart (dataUrl : String) : Except String String :=
  if dataUrl = "" then Except.error "Failed to read file"
  else Except.ok ((jsSplit ',' dataUrl).getD 1 "")

/-- The possible outcomes of the canvas fallback in `resolveImageInput`:
the image fails to load, `getContext` returns null, `toDataURL` throws on a
tainted canvas, or a data URL is produced. -/
inductive CanvasOutcome where
  | loadFail
  | ctxFail
  | tainted
  | success (dataUrl : String)
deriving Repr, DecidableEq

/-- The canvas-fallback promise of `resolveImageInput` (lines 46-68): reject
with the corresponding error, or resolve with the stripped data URL. -/
def canvasFallback : CanvasOutcome → Except String String
  | CanvasOutcome.loadFail => Except.error "Failed to load image resource"
  | CanvasOutcome.ctxFail => Except.error "Canvas context failed"
  | CanvasOutcome.tainted => Except.error "Canvas tainted, CORS blocked"
  | CanvasOutcome.success dataUrl => Except.ok (base64ToGenerativePart dataUrl)

/-- `geminiService.ts` `resolveImageInput`: a `data:` input is stripped
directly; otherwise the input is fetched (`fetchResult` is the data URL the
`FileReader` sees on success, or the network/HTTP failure) and converted by
`fileToGenerativePart`; any failure inside that `try` falls back to the
canvas path, whose failure is the promise's rejection. -/
def resolveImageInput (input : String) (fetchResult : Except String String)
    (canvas : CanvasOutcome) : Except String String :=
  if jsStartsWith input "data:" then Except.ok (base64ToGenerativePart input)
  else
    match
      (match fetchResult with
       | Except.ok blobDataUrl => fileToGenerativePart blobDataUrl
       | Except.error e => Except.error e) with
    | Except.ok raw => Except.ok raw
    | Except.error _ => canvasFallback canvas

/-- The initial `App.tsx` component state: no image, no captions, no
selection, idle, empty prompt, no error. -/
def emptyOrchestrator : OrchestratorState where
  currentImage := none
  captions := []
  selectedCaptionId := none
  appState := AppState.IDLE
  editPrompt := ""
  errorMsg := none

/-- A sequence of add-caption actions: each entry pairs the clock reading
`Date.now()` observed by that call with the caption text. -/
def addMany (adds : List (ℕ × String)) (s : OrchestratorState) : OrchestratorState :=
  adds.foldl (fun s a => addCaption a.1 a.2 s) s

/-- Number of captions currently flagged as dragging. -/
def dragCount (s : List MemeCaption) : ℕ :=
  (s.map fun c => c.isDragging).count true

/-- The caption-list states reachable through a single-pointer event sequence:
from a rest state (no caption dragging, ids distinct), pointer-downs and
pointer-ups alternate (the `Bool` index tracks whether the pointer is down;
a fresh pointer-down needs the pointer up, while the global pointer-up
listener may fire at any time), and pointer-moves may occur throughout. -/
inductive ReachableDrag : Bool → List MemeCaption → Prop where
  | init (captions : List MemeCaption)
      (hidle : ∀ c ∈ captions, c.isDragging = false)
      (hids : (captions.map fun c => c.id).Nodup) :
      ReachableDrag false captions
  | down (id : String) (s : List MemeCaption) :
      ReachableDrag false s → ReachableDrag true (handleMouseDown id s)
  | move (clientX clientY : ℚ) (rect : Rect) (b : Bool) (s : List MemeCaption) :
      ReachableDrag b s → ReachableDrag b (handleMouseMove clientX clientY rect s)
  | up (b : Bool) (s : List MemeCaption) :
      ReachableDrag b s → ReachableDrag false (handleMouseUp s)

section HelperLemmas

/-- An update whose id fields miss every caption of the list is a no-op. -/
lemma updateCaption_of_no_match (id : String) (u : CaptionUpdate)
    (s : List MemeCaption) (h : ∀ c ∈ s, c.id ≠ id) :
    updateCaption id u s = s := by
  induction s with
  | nil => rfl
  | cons c t ih =>
      have hc : c.id ≠ id := h c (List.mem_cons_self c t)
      simp only [updateCaption, List.map_cons, if_neg hc]
      rw [show (List.map (fun c => if c.id = id then applyUpdate c u else c) t) =
        updateCaption id u t from rfl, ih fun c hct => h c (List.mem_cons_of_mem _ hct)]

/-- `updateCaption` leaves invariant any per-caption observation `f` that the
update `u` cannot change. -/
lemma updateCaption_map {α : Type} (f : MemeCaption → α) (u : CaptionUpdate)
    (hf : ∀ c, f (applyUpdate c u) = f c) (id : String) (s : List MemeCaption) :
    (updateCaption id u s).map f = s.map f := by
  induction s with
  | nil => rfl
  | cons c t ih =>
      simp only [updateCaption, List.map_cons] at ih ⊢
      rw [ih]
      by_cases h : c.id = id
      · rw [if_pos h, hf]
      · rw [if_neg h]

/-- The drag-handler folds (`handleMouseMove`, `handleMouseUp`) leave
invariant any per-caption observation `f` that their update `u` cannot
change. -/
lemma foldl_updateCaption_map {α : Type} (f : MemeCaption → α) (u : CaptionUpdate)
    (hf : ∀ c, f (applyUpdate c u) = f c) :
    ∀ (l s : List MemeCaption),
      ((l.foldl (fun s cap => if cap.isDragging then updateCaption cap.id u s else s)
        s).map f) = s.map f := by
  intro l
  induction l with
  | nil => intro s; rfl
  | cons cap t ih =>
      intro s
      rw [List.foldl_cons]
      by_cases hcap : cap.isDragging
      · rw [if_pos hcap, ih, updateCaption_map f u hf]
      · rw [if_neg hcap, ih]

/-- Main lemma for the drag-handler folds: if the fold's update `u`
establishes `Q`, then every caption still flagged as dragging after folding
over `l` satisfies `Q`, provided every dragging caption of the start state
either occurs (by id) among the dragging captions of `l` or already
satisfies `Q`. -/
lemma foldl_updateCaption_establishes (u : CaptionUpdate) (Q : MemeCaption → Prop)
    (hQ : ∀ c, Q (applyUpdate c u)) :
    ∀ (l s : List MemeCaption),
      (∀ c ∈ s, c.isDragging = true →
        c.id ∈ ((l.filter fun c => c.isDragging).map fun c => c.id) ∨ Q c) →
      ∀ c ∈ l.foldl (fun s cap => if cap.isDragging then updateCaption cap.id u s else s) s,
        c.isDragging = true → Q c := by
  intro l
  induction l with
  | nil =>
      intro s hs c hc hcd
      rcases hs c hc hcd with h | h
      · simp at h
      · exact h
  | cons cap t ih =>
      intro s hs c hc hcd
      rw [List.foldl_cons] at hc
      by_cases hcap : cap.isDragging
      · rw [if_pos hcap] at hc
        refine ih (updateCaption cap.id u s) ?_ c hc hcd
        intro c' hc' hcd'
        obtain ⟨c0, hc0, hf⟩ := List.mem_map.1 hc'
        by_cases h0 : c0.id = cap.id
        · right
          rw [if_pos h0] at hf
          rw [← hf]
          exact hQ c0
        · rw [if_neg h0] at hf
          subst hf
          rcases hs c0 hc0 hcd' with hmem | hq
          · left
            rw [List.filter_cons_of_pos (by simpa using hcap), List.map_cons] at hmem
            rcases List.mem_cons.1 hmem with heq | htail
            · exact absurd heq h0
            · exact htail
          · right; exact hq
      · rw [if_neg hcap] at hc
        refine ih s ?_ c hc hcd
        intro c' hc' hcd'
        rcases hs c' hc' hcd' with hmem | hq
        · left
          rwa [List.filter_cons_of_neg (by simpa using hcap), ] at hmem
        · right; exact hq

/-- A list with no dragging caption has drag count zero. -/
lemma dragCount_eq_zero_of_idle (s : List MemeCaption)
    (h : ∀ c ∈ s, c.isDragging = false) : dragCount s = 0 := by
  rw [dragCount, List.count_eq_zero]
  intro hmem
  obtain ⟨c, hc, hcd⟩ := List.mem_map.1 hmem
  exact (Bool.false_ne_true) ((h c hc) ▸ hcd)

/-- Conversely, drag count zero means no caption is dragging. -/
lemma idle_of_dragCount_eq_zero (s : List MemeCaption)
    (h : dragCount s = 0) : ∀ c ∈ s, c.isDragging = false := by
  intro c hc
  rw [dragCount, List.count_eq_zero] at h
  by_contra hne
  refine h (List.mem_map.2 ⟨c, hc, ?_⟩)
  cases hb : c.isDragging
  · exact absurd hb hne
  · rfl

/-- Pointer-down on a caption from an all-idle state with distinct ids flags
at most one caption (the one whose id matches, if any). -/
lemma dragCount_handleMouseDown_le_one (id : String) (s : List MemeCaption)
    (hidle : ∀ c ∈ s, c.isDragging = false)
    (hids : (s.map fun c => c.id).Nodup) :
    dragCount (handleMouseDown id s) ≤ 1 := by
  induction s with
  | nil => simp [handleMouseDown, updateCaption, dragCount]
  | cons c t ih =>
      have hc : c.isDragging = false := hidle c (List.mem_cons_self c t)
      have htidle : ∀ c' ∈ t, c'.isDragging = false :=
        fun c' hct => hidle c' (List.mem_cons_of_mem _ hct)
      rw [List.map_cons, List.nodup_cons] at hids
      have hcons : handleMouseDown id (c :: t) =
          (if c.id = id then applyUpdate c { isDragging := some true } else c) ::
            handleMouseDown id t := rfl
      rw [hcons]
      by_cases h : c.id = id
      · have htno : ∀ c' ∈ t, c'.id ≠ id := fun c' hct heq =>
          hids.1 (List.mem_map.2 ⟨c', hct, heq.trans h.symm⟩)
        rw [if_pos h,
          show handleMouseDown id t = t from updateCaption_of_no_match id _ t htno]
        have h0 : dragCount t = 0 := dragCount_eq_zero_of_idle t htidle
        simp only [dragCount, List.map_cons, List.count_cons] at h0 ⊢
        simp [h0, applyUpdate]
      · rw [if_neg h]
        have ht := ih htidle hids.2
        simp only [dragCount, List.map_cons, List.count_cons, hc] at ht ⊢
        simpa using ht

/-- The global pointer-up handler leaves no caption dragging. -/
lemma handleMouseUp_idle (s : List MemeCaption) :
    ∀ c ∈ handleMouseUp s, c.isDragging = false := by
  have key := foldl_updateCaption_establishes { isDragging := some false }
    (fun c => c.isDragging = false) (fun c => rfl) s s
    (fun c hc hcd => Or.inl (List.mem_map.2 ⟨c, List.mem_filter.2 ⟨hc, by simpa using hcd⟩, rfl⟩))
  intro c hc
  by_contra hne
  have hb : c.isDragging = true := by
    cases hbb : c.isDragging
    · exact absurd hbb hne
    · rfl
  exact hne (key c hc hb)

/-- `handleMouseMove` changes neither ids nor drag flags. -/
lemma handleMouseMove_map {α : Type} (f : MemeCaption → α)
    (clientX clientY : ℚ) (rect : Rect) (s : List MemeCaption)
    (hf : ∀ (c : MemeCaption) (v w : ℚ),
      f (applyUpdate c { x := some v, y := some w }) = f c) :
    ((handleMouseMove clientX clientY rect s).map f) = s.map f := by
  unfold handleMouseMove
  exact foldl_updateCaption_map f
    { x := some (max 0 (min (clientX - rect.left) rect.width))
      y := some (max 0 (min (clientY - rect.top) rect.height)) }
    (fun c => hf c _ _) s s

/-- `handleMouseUp` does not change ids. -/
lemma handleMouseUp_map_id (s : List MemeCaption) :
    ((handleMouseUp s).map fun c => c.id) = s.map fun c => c.id := by
  unfold handleMouseUp
  exact foldl_updateCaption_map (fun c => c.id) { isDragging := some false }
    (fun c => rfl) s s

/-- The invariant carried along `ReachableDrag`: ids stay distinct, at most
one caption drags, and with the pointer up none drags. -/
lemma reachableDrag_invariant {b : Bool} {s : List MemeCaption}
    (h : ReachableDrag b s) :
    ((s.map fun c => c.id).Nodup ∧ dragCount s ≤ 1 ∧
      (b = false → dragCount s = 0)) := by
  induction h with
  | init captions hidle hids =>
      exact ⟨hids, by rw [dragCount_eq_zero_of_idle captions hidle]; omega,
        fun _ => dragCount_eq_zero_of_idle captions hidle⟩
  | down id s hr ih =>
      obtain ⟨hids, _, hzero⟩ := ih
      have hidle := idle_of_dragCount_eq_zero _ (hzero rfl)
      refine ⟨?_, dragCount_handleMouseDown_le_one id _ hidle hids, ?_⟩
      · rw [show handleMouseDown id s = updateCaption id { isDragging := some true } s
          from rfl,
          updateCaption_map (fun c => c.id) { isDragging := some true } (fun c => rfl)]
        exact hids
      · intro hfalse; cases hfalse
  | move clientX clientY rect b s hr ih =>
      obtain ⟨hids, hle, hzero⟩ := ih
      have hdrag : dragCount (handleMouseMove clientX clientY rect s) = dragCount s := by
        rw [dragCount, dragCount,
          handleMouseMove_map (fun c => c.isDragging) clientX clientY rect s
            (fun c v w => rfl)]
      refine ⟨?_, ?_, ?_⟩
      · rw [handleMouseMove_map (fun c => c.id) clientX clientY rect s
          (fun c v w => rfl)]
        exact hids
      · rw [hdrag]; exact hle
      · intro hb; rw [hdrag]; exact hzero hb
  | up b s hr ih =>
      obtain ⟨hids, _, _⟩ := ih
      have hidle := handleMouseUp_idle s
      refine ⟨?_, ?_, fun _ => dragCount_eq_zero_of_idle _ hidle⟩
      · rw [handleMouseUp_map_id]; exact hids
      · rw [dragCount_eq_zero_of_idle _ hidle]; omega

/-- Unrolling the compositor fold: the draw calls a caption emits do not
depend on the incoming context state (every style field they record is
assigned in the same loop iteration), so the emitted calls are the
per-caption call pairs concatenated in collection order. -/
lemma drawCaptions_ops_aux (naturalWidth : ℚ) (imgRect containerRect : Rect) :
    ∀ (captions : List MemeCaption) (ctx : Ctx) (acc : List DrawOp),
      (captions.foldl
        (fun acc cap =>
          let r := drawCaption naturalWidth imgRect containerRect acc.1 cap
          (r.1, acc.2 ++ r.2)) (ctx, acc)).2 =
      acc ++ captions.flatMap
        (fun cap => (drawCaption naturalWidth imgRect containerRect freshCtx cap).2) := by
  intro captions
  induction captions with
  | nil => intro ctx acc; simp
  | cons cap t ih =>
      intro ctx acc
      rw [List.foldl_cons, List.flatMap_cons]
      have hstep := ih (drawCaption naturalWidth imgRect containerRect ctx cap).1
        (acc ++ (drawCaption naturalWidth imgRect containerRect ctx cap).2)
      rw [← List.append_assoc]
      exact hstep

/-- The captions appended by a sequence of add-caption actions. -/
lemma addMany_captions (adds : List (ℕ × String)) :
    ∀ s : OrchestratorState,
      (addMany adds s).captions =
        s.captions ++ adds.map fun a =>
          ({ id := toString a.1, text := a.2, x := 300, y := 50,
             color := "#FFFFFF", fontSize := 32 } : MemeCaption) := by
  induction adds with
  | nil => intro s; simp [addMany]
  | cons a t ih =>
      intro s
      rw [show addMany (a :: t) s = addMany t (addCaption a.1 a.2 s) from rfl, ih]
      simp [addCaption]

end HelperLemmas

/-- Claim C1: for every caption and every export, the compositor maps the
caption's display-space anchor to natural-image coordinates by
`naturalX = (displayX − offsetX) * scale` and
`naturalY = (displayY − offsetY) * scale`, where
`scale = naturalWidth / displayedImageWidth` and the offset is the displayed
image's top-left minus the container's top-left: both draw calls of every
caption are placed at exactly that point; and in the 1600×1200-natural,
800×600-displayed, zero-offset scenario, display (400, 300) maps to natural
(800, 600). -/
theorem C1_coordinate_mapping :
    (∀ (naturalWidth : ℚ) (imgRect containerRect : Rect) (ctx : Ctx)
        (cap : MemeCaption) (op : DrawOp),
        op ∈ (drawCaption naturalWidth imgRect containerRect ctx cap).2 →
        op.x = (cap.x - (imgRect.left - containerRect.left)) *
            (naturalWidth / imgRect.width) ∧
        op.y = (cap.y - (imgRect.top - containerRect.top)) *
            (naturalWidth / imgRect.width)) ∧
    exportPos 1600 ⟨0, 0, 800, 600⟩ ⟨0, 0, 800, 600⟩
      ⟨"1", "t", 400, 300, "#FFFFFF", 32, false⟩ = (800, 600) := by
  constructor
  · intro nw ir cr ctx cap op hop
    rcases List.mem_cons.1 hop with h | h
    · subst h; exact ⟨rfl, rfl⟩
    · rw [List.mem_singleton] at h; subst h; exact ⟨rfl, rfl⟩
  · norm_num [exportPos]

/-- Witness for C1: the stroke call of a caption at display (400, 300),
natural width 1600 shown in an 800-wide box at zero offset, lands at the
mapped point. -/
theorem C1_coordinate_mapping_witness :
    ((⟨true, "t", 800, 600, "#FFFFFF", "black", 8, "rgba(0,0,0,0.8)", 8, 0, 4⟩ : DrawOp) ∈
        (drawCaption 1600 ⟨0, 0, 800, 600⟩ ⟨0, 0, 800, 600⟩ freshCtx
          ⟨"1", "t", 400, 300, "#FFFFFF", 32, false⟩).2) ∧
    ((⟨true, "t", 800, 600, "#FFFFFF", "black", 8, "rgba(0,0,0,0.8)", 8, 0, 4⟩ : DrawOp).x =
        ((⟨"1", "t", 400, 300, "#FFFFFF", 32, false⟩ : MemeCaption).x -
          ((⟨0, 0, 800, 600⟩ : Rect).left - (⟨0, 0, 800, 600⟩ : Rect).left)) *
          (1600 / (⟨0, 0, 800, 600⟩ : Rect).width) ∧
      (⟨true, "t", 800, 600, "#FFFFFF", "black", 8, "rgba(0,0,0,0.8)", 8, 0, 4⟩ : DrawOp).y =
        ((⟨"1", "t", 400, 300, "#FFFFFF", 32, false⟩ : MemeCaption).y -
          ((⟨0, 0, 800, 600⟩ : Rect).top - (⟨0, 0, 800, 600⟩ : Rect).top)) *
          (1600 / (⟨0, 0, 800, 600⟩ : Rect).width)) := by
  have hmem : (⟨true, "t", 800, 600, "#FFFFFF", "black", 8, "rgba(0,0,0,0.8)", 8, 0, 4⟩ :
      DrawOp) ∈ (drawCaption 1600 ⟨0, 0, 800, 600⟩ ⟨0, 0, 800, 600⟩ freshCtx
        ⟨"1", "t", 400, 300, "#FFFFFF", 32, false⟩).2 := by
    norm_num [drawCaption, exportPos]
  exact ⟨hmem, C1_coordinate_mapping.1 _ _ _ _ _ _ hmem⟩

/-- Counterexample to claim C2 as stated: in a concrete export (scale 1) the
second draw call of the caption is the fill, and it is still affected by a
shadow — the shadow offset is 2 (not 0) and the shadow color is the
semi-transparent black set for the stroke pass, because the code resets only
`shadowBlur` before `fillText`. -/
theorem C2_fill_shadow_counterexample :
    ((drawCaptions 800 ⟨0, 0, 800, 600⟩ ⟨0, 0, 800, 600⟩
        [⟨"1", "HI", 100, 100, "#FFFFFF", 32, false⟩]).2.getD 1 default).isStroke = false ∧
    ((drawCaptions 800 ⟨0, 0, 800, 600⟩ ⟨0, 0, 800, 600⟩
        [⟨"1", "HI", 100, 100, "#FFFFFF", 32, false⟩]).2.getD 1 default).shadowOffsetY ≠ 0 ∧
    ((drawCaptions 800 ⟨0, 0, 800, 600⟩ ⟨0, 0, 800, 600⟩
        [⟨"1", "HI", 100, 100, "#FFFFFF", 32, false⟩]).2.getD 1 default).shadowColor =
      "rgba(0,0,0,0.8)" := by
  norm_num [drawCaptions, drawCaption, exportPos, freshCtx, List.getD]

/-- Claim C2 as amended: for every caption drawn during export, the outline
stroke is drawn first with the soft drop shadow (semi-transparent black,
blur `4 * scale`, offset `(0, 2 * scale)`) applied, and the fill text is
drawn second with the shadow blur reset to 0 for the fill pass — but the
shadow color and the downward offset `2 * scale` from the stroke pass remain
in effect for the fill drawing. -/
theorem C2_stroke_then_fill_amended (naturalWidth : ℚ)
    (imgRect containerRect : Rect) (captions : List MemeCaption) :
    (drawCaptions naturalWidth imgRect containerRect captions).2 =
      captions.flatMap fun cap =>
        [⟨true, cap.text,
            (cap.x - (imgRect.left - containerRect.left)) * (naturalWidth / imgRect.width),
            (cap.y - (imgRect.top - containerRect.top)) * (naturalWidth / imgRect.width),
            cap.color, "black", 4 * (naturalWidth / imgRect.width),
            "rgba(0,0,0,0.8)", 4 * (naturalWidth / imgRect.width), 0,
            2 * (naturalWidth / imgRect.width)⟩,
         ⟨false, cap.text,
            (cap.x - (imgRect.left - containerRect.left)) * (naturalWidth / imgRect.width),
            (cap.y - (imgRect.top - containerRect.top)) * (naturalWidth / imgRect.width),
            cap.color, "black", 4 * (naturalWidth / imgRect.width),
            "rgba(0,0,0,0.8)", 0, 0,
            2 * (naturalWidth / imgRect.width)⟩] := by
  have h := drawCaptions_ops_aux naturalWidth imgRect containerRect captions freshCtx []
  rw [List.nil_append] at h
  exact h

/-- Claim C3: every pointer-move step of a drag computes the new position as
the pointer position relative to the container, clamped to
`[0, containerWidth] × [0, containerHeight]`; hence after every drag-driven
update the dragged caption's coordinates lie within those bounds. -/
theorem C3_drag_clamped (containerRect : Rect)
    (hw : 0 ≤ containerRect.width) (hh : 0 ≤ containerRect.height)
    (clientX clientY : ℚ) (captions : List MemeCaption) :
    ∀ c ∈ handleMouseMove clientX clientY containerRect captions,
      c.isDragging = true →
      (c.x = max 0 (min (clientX - containerRect.left) containerRect.width) ∧
       c.y = max 0 (min (clientY - containerRect.top) containerRect.height)) ∧
      (0 ≤ c.x ∧ c.x ≤ containerRect.width ∧ 0 ≤ c.y ∧ c.y ≤ containerRect.height) := by
  have key := foldl_updateCaption_establishes
    { x := some (max 0 (min (clientX - containerRect.left) containerRect.width))
      y := some (max 0 (min (clientY - containerRect.top) containerRect.height)) }
    (fun c => c.x = max 0 (min (clientX - containerRect.left) containerRect.width) ∧
      c.y = max 0 (min (clientY - containerRect.top) containerRect.height))
    (fun c => ⟨rfl, rfl⟩) captions captions
    (fun c hc hcd =>
      Or.inl (List.mem_map.2 ⟨c, List.mem_filter.2 ⟨hc, by simpa using hcd⟩, rfl⟩))
  intro c hc hcd
  have hQ := key c hc hcd
  refine ⟨hQ, ?_⟩
  obtain ⟨hx, hy⟩ := hQ
  rw [hx, hy]
  exact ⟨le_max_left _ _, max_le hw (min_le_right _ _),
    le_max_left _ _, max_le hh (min_le_right _ _)⟩

/-- Witness for C3: a dragging caption at (1000, −5) in an 800×600 container,
with the pointer at (900, −50), ends up at the clamped position (800, 0),
inside the bounds. -/
theorem C3_drag_clamped_witness :
    (0 : ℚ) ≤ (⟨0, 0, 800, 600⟩ : Rect).width ∧
    (0 : ℚ) ≤ (⟨0, 0, 800, 600⟩ : Rect).height ∧
    (⟨"1", "hi", 800, 0, "#FFFFFF", 32, true⟩ : MemeCaption) ∈
      handleMouseMove 900 (-50) ⟨0, 0, 800, 600⟩
        [⟨"1", "hi", 1000, -5, "#FFFFFF", 32, true⟩] ∧
    (((⟨"1", "hi", 800, 0, "#FFFFFF", 32, true⟩ : MemeCaption).x =
        max 0 (min (900 - (⟨0, 0, 800, 600⟩ : Rect).left) (⟨0, 0, 800, 600⟩ : Rect).width) ∧
      (⟨"1", "hi", 800, 0, "#FFFFFF", 32, true⟩ : MemeCaption).y =
        max 0 (min (-50 - (⟨0, 0, 800, 600⟩ : Rect).top) (⟨0, 0, 800, 600⟩ : Rect).height)) ∧
     (0 ≤ (⟨"1", "hi", 800, 0, "#FFFFFF", 32, true⟩ : MemeCaption).x ∧
      (⟨"1", "hi", 800, 0, "#FFFFFF", 32, true⟩ : MemeCaption).x ≤
        (⟨0, 0, 800, 600⟩ : Rect).width ∧
      0 ≤ (⟨"1", "hi", 800, 0, "#FFFFFF", 32, true⟩ : MemeCaption).y ∧
      (⟨"1", "hi", 800, 0, "#FFFFFF", 32, true⟩ : MemeCaption).y ≤
        (⟨0, 0, 800, 600⟩ : Rect).height)) := by
  have hres : handleMouseMove 900 (-50) ⟨0, 0, 800, 600⟩
      [⟨"1", "hi", 1000, -5, "#FFFFFF", 32, true⟩] =
      [⟨"1", "hi", 800, 0, "#FFFFFF", 32, true⟩] := by
    norm_num [handleMouseMove, updateCaption, applyUpdate, min_def, max_def]
  have hmem : (⟨"1", "hi", 800, 0, "#FFFFFF", 32, true⟩ : MemeCaption) ∈
      handleMouseMove 900 (-50) ⟨0, 0, 800, 600⟩
        [⟨"1", "hi", 1000, -5, "#FFFFFF", 32, true⟩] := by
    rw [hres]; exact List.mem_singleton.2 rfl
  exact ⟨by norm_num, by norm_num, hmem,
    C3_drag_clamped ⟨0, 0, 800, 600⟩ (by norm_num) (by norm_num) 900 (-50) _ _ hmem rfl⟩

/-- Claim C4: in every caption-list state reachable by a single-pointer
event sequence (pointer-downs and pointer-ups alternating, pointer-up ending
all drags globally, pointer-moves interleaved), at most one caption has
`isDragging = true`. -/
theorem C4_at_most_one_dragging {b : Bool} {s : List MemeCaption}
    (h : ReachableDrag b s) : dragCount s ≤ 1 :=
  (reachableDrag_invariant h).2.1

/-- Witness for C4: pressing the pointer on caption "1" of a two-caption
rest state reaches a state with at most one dragging caption. -/
theorem C4_at_most_one_dragging_witness :
    ReachableDrag true (handleMouseDown "1"
      [⟨"1", "a", 10, 10, "#FFFFFF", 32, false⟩,
       ⟨"2", "b", 20, 20, "#FF0000", 40, false⟩]) ∧
    dragCount (handleMouseDown "1"
      [⟨"1", "a", 10, 10, "#FFFFFF", 32, false⟩,
       ⟨"2", "b", 20, 20, "#FF0000", 40, false⟩]) ≤ 1 := by
  have hreach : ReachableDrag true (handleMouseDown "1"
      [⟨"1", "a", 10, 10, "#FFFFFF", 32, false⟩,
       ⟨"2", "b", 20, 20, "#FF0000", 40, false⟩]) :=
    ReachableDrag.down "1" _ (ReachableDrag.init _ (by decide) (by decide))
  exact ⟨hreach, C4_at_most_one_dragging hreach⟩

/-- Counterexample to claim C5 as stated: the id of an added caption is
`Date.now().toString()`, so two add-caption calls that observe the same
millisecond (here both read 1000) produce two captions with the same id —
the collection's ids are no longer distinct. -/
theorem C5_duplicate_id_counterexample :
    ¬ (((addMany [(1000, "A"), (1000, "B")] emptyOrchestrator).captions.map
        fun c => c.id).Nodup) := by
  decide

/-- Claim C5 as amended: for every sequence of add-caption operations whose
observed clock readings yield pairwise-distinct id strings (in particular,
no two adds in the same millisecond), every caption's id is unique within
the collection at all times, i.e. after every prefix of the sequence,
starting from the empty collection. -/
theorem C5_unique_ids_amended (adds : List (ℕ × String))
    (h : (adds.map fun a => toString a.1).Nodup) (n : ℕ) :
    (((addMany (adds.take n) emptyOrchestrator).captions.map fun c => c.id).Nodup) := by
  rw [addMany_captions]
  simp only [emptyOrchestrator, List.nil_append, List.map_map]
  have hsub : List.Sublist ((adds.take n).map fun a => toString a.1)
      (adds.map fun a => toString a.1) := (List.take_sublist n adds).map _
  exact List.Nodup.sublist hsub h

/-- Witness for C5: two adds at distinct milliseconds 1 and 2 leave the ids
distinct after both. -/
theorem C5_unique_ids_amended_witness :
    (([((1 : ℕ), "A"), (2, "B")].map fun a => toString a.1).Nodup) ∧
    (((addMany ([((1 : ℕ), "A"), (2, "B")].take 2) emptyOrchestrator).captions.map
      fun c => c.id).Nodup) := by
  have h : (([((1 : ℕ), "A"), (2, "B")].map fun a => toString a.1).Nodup) := by decide
  exact ⟨h, C5_unique_ids_amended _ h 2⟩

/-- Claim C6: when the image-edit request fails, the background image and the
caption collection are exactly as before, a single error message is shown,
and the request status is reset to idle by the `finally` cleanup regardless
of the outcome. -/
theorem C6_edit_failure_preserves_state (s : OrchestratorState) (img err : String)
    (hImg : s.currentImage = some img) (hPrompt : jsTrim s.editPrompt ≠ "") :
    (handleImageEdit (Except.error err) s).currentImage = s.currentImage ∧
    (handleImageEdit (Except.error err) s).captions = s.captions ∧
    (handleImageEdit (Except.error err) s).errorMsg =
      some "Failed to edit image. The prompt might be too complex or blocked." ∧
    ∀ r : Except String String, (handleImageEdit r s).appState = AppState.IDLE := by
  have hguard : ¬ (s.currentImage = none ∨ jsTrim s.editPrompt = "") := by
    rintro (h | h)
    · rw [hImg] at h; cases h
    · exact hPrompt h
  refine ⟨?_, ?_, ?_, ?_⟩
  · simp [handleImageEdit, hguard]
  · simp [handleImageEdit, hguard]
  · simp [handleImageEdit, hguard]
  · intro r
    cases r <;> simp [handleImageEdit, hguard]

/-- Witness for C6: a concrete state with an image and the prompt "x", whose
edit request fails. -/
theorem C6_edit_failure_preserves_state_witness :
    (({ emptyOrchestrator with currentImage := some "img", editPrompt := "x" } :
        OrchestratorState).currentImage = some "img") ∧
    jsTrim ({ emptyOrchestrator with currentImage := some "img", editPrompt := "x" } :
        OrchestratorState).editPrompt ≠ "" ∧
    (handleImageEdit (Except.error "boom")
      { emptyOrchestrator with currentImage := some "img", editPrompt := "x" }).currentImage =
      some "img" ∧
    (handleImageEdit (Except.error "boom")
      { emptyOrchestrator with currentImage := some "img", editPrompt := "x" }).captions = [] ∧
    (handleImageEdit (Except.error "boom")
      { emptyOrchestrator with currentImage := some "img", editPrompt := "x" }).errorMsg =
      some "Failed to edit image. The prompt might be too complex or blocked." ∧
    (handleImageEdit (Except.ok "newImg")
      { emptyOrchestrator with currentImage := some "img", editPrompt := "x" }).appState =
      AppState.IDLE := by
  have hP : jsTrim "x" ≠ "" := by decide
  have hmain := C6_edit_failure_preserves_state
    { emptyOrchestrator with currentImage := some "img", editPrompt := "x" }
    "img" "boom" rfl hP
  exact ⟨rfl, hP, hmain.1, hmain.2.1, hmain.2.2.1, hmain.2.2.2 (Except.ok "newImg")⟩

/-- Counterexample to claim C7 as stated: when the compositor throws during
the share action, the catch only logs — no user-visible error message is
produced (the error-message state stays `none`), so the failure is not
surfaced for the share action. -/
theorem C7_share_swallows_counterexample :
    (handleShare (Except.error ()) (Except.ok none) true
      { emptyOrchestrator with currentImage := some "img" }).errorMsg = none := rfl

/-- Claim C7 as amended: a compositor failure (null blob or thrown error) is
converted into a user-visible error message by the download action, but the
share action catches the failure silently and leaves the error-message state
unchanged. -/
theorem C7_download_surfaces_share_swallows (s : OrchestratorState)
    (blobResult2 : Except Unit (Option String)) (canShare : Bool) :
    (handleDownload (Except.ok none) s).errorMsg = some "Failed to download meme." ∧
    (handleDownload (Except.error ()) s).errorMsg = some "Failed to download meme." ∧
    (handleShare (Except.ok none) blobResult2 canShare s).errorMsg = s.errorMsg ∧
    (handleShare (Except.error ()) blobResult2 canShare s).errorMsg = s.errorMsg :=
  ⟨rfl, rfl, rfl, rfl⟩

/-- Claim C8: adding a caption with text "NEW TEXT" appends exactly one
caption with position (300, 50), color `#FFFFFF`, font size 32, and selects
it. -/
theorem C8_addCaption_defaults (s : OrchestratorState) (now : ℕ) :
    (addCaption now "NEW TEXT" s).captions =
      s.captions ++
        [{ id := toString now, text := "NEW TEXT", x := 300, y := 50,
           color := "#FFFFFF", fontSize := 32 }] ∧
    (addCaption now "NEW TEXT" s).captions.length = s.captions.length + 1 ∧
    (addCaption now "NEW TEXT" s).selectedCaptionId = some (toString now) := by
  refine ⟨rfl, ?_, rfl⟩
  simp [addCaption]

/-- Claim C9: image normalization returns raw base64 — a `data:` input has
its prefix stripped with no dependence on the network fetch; a non-`data:`
input is fetched and converted, a fetch-path failure falls back to the
canvas re-encode, and when that second path also fails the result is a
reported rejection, never silently swallowed. -/
theorem C9_resolveImageInput_paths :
    (∀ (input : String) (fetchResult : Except String String) (canvas : CanvasOutcome),
        jsStartsWith input "data:" = true →
        resolveImageInput input fetchResult canvas =
          Except.ok (base64ToGenerativePart input)) ∧
    (∀ (input blobDataUrl : String) (canvas : CanvasOutcome),
        jsStartsWith input "data:" = false →
        resolveImageInput input (Except.ok blobDataUrl) canvas =
          match fileToGenerativePart blobDataUrl with
          | Except.ok raw => Except.ok raw
          | Except.error _ => canvasFallback canvas) ∧
    (∀ (input e : String) (canvas : CanvasOutcome),
        jsStartsWith input "data:" = false →
        resolveImageInput input (Except.error e) canvas = canvasFallback canvas) ∧
    (∀ (input e : String) (canvas : CanvasOutcome),
        jsStartsWith input "data:" = false →
        (∀ d, canvas ≠ CanvasOutcome.success d) →
        ∃ msg, resolveImageInput input (Except.error e) canvas = Except.error msg) := by
  refine ⟨?_, ?_, ?_, ?_⟩
  · intro input fetchResult canvas h
    simp [resolveImageInput, h]
  · intro input blobDataUrl canvas h
    simp [resolveImageInput, h]
  · intro input e canvas h
    simp [resolveImageInput, h]
  · intro input e canvas h hc
    cases canvas with
    | loadFail =>
        exact ⟨"Failed to load image resource",
          by simp [resolveImageInput, h, canvasFallback]⟩
    | ctxFail =>
        exact ⟨"Canvas context failed",
          by simp [resolveImageInput, h, canvasFallback]⟩
    | tainted =>
        exact ⟨"Canvas tainted, CORS blocked",
          by simp [resolveImageInput, h, canvasFallback]⟩
    | success d => exact absurd rfl (hc d)

/-- Witness for C9: a concrete data URL is stripped regardless of a failing
fetch, and a concrete remote URL whose fetch and canvas fallback both fail
ends in a reported error. -/
theorem C9_resolveImageInput_paths_witness :
    jsStartsWith "data:image/png;base64,AAA" "data:" = true ∧
    resolveImageInput "data:image/png;base64,AAA" (Except.error "net")
      CanvasOutcome.tainted =
      Except.ok (base64ToGenerativePart "data:image/png;base64,AAA") ∧
    jsStartsWith "https://i.imgflip.com/1ur9b0.jpg" "data:" = false ∧
    resolveImageInput "https://i.imgflip.com/1ur9b0.jpg" (Except.error "net")
      CanvasOutcome.tainted = canvasFallback CanvasOutcome.tainted ∧
    (∃ msg, resolveImageInput "https://i.imgflip.com/1ur9b0.jpg" (Except.error "net")
      CanvasOutcome.tainted = Except.error msg) := by
  refine ⟨by decide, C9_resolveImageInput_paths.1 _ _ _ (by decide), by decide,
    C9_resolveImageInput_paths.2.2.1 _ _ _ (by decide),
    C9_resolveImageInput_paths.2.2.2 _ _ _ (by decide) ?_⟩
  intro d hd
  cases hd

/-- Claim C10: `updateCaption` preserves the length and order of the caption
collection, leaves every caption whose id differs from the given id
unchanged in place, and is a no-op when no caption has the given id. -/
theorem C10_updateCaption_frame (id : String) (u : CaptionUpdate)
    (captions : List MemeCaption) :
    (updateCaption id u captions).length = captions.length ∧
    (∀ (i : ℕ) (c : MemeCaption), captions[i]? = some c → c.id ≠ id →
      (updateCaption id u captions)[i]? = some c) ∧
    ((∀ c ∈ captions, c.id ≠ id) → updateCaption id u captions = captions) := by
  refine ⟨by simp [updateCaption], ?_, ?_⟩
  · intro i c hc hne
    simp [updateCaption, List.getElem?_map, hc, hne]
  · intro h
    exact updateCaption_of_no_match id u captions h

/-- Witness for C10: updating id "z" in a two-caption collection whose ids
are "a" and "b" keeps both captions in place and is a no-op. -/
theorem C10_updateCaption_frame_witness :
    (([⟨"a", "t1", 1, 2, "#FFFFFF", 32, false⟩,
       ⟨"b", "t2", 3, 4, "#FF0000", 40, false⟩] :
        List MemeCaption)[0]? = some ⟨"a", "t1", 1, 2, "#FFFFFF", 32, false⟩) ∧
    ((⟨"a", "t1", 1, 2, "#FFFFFF", 32, false⟩ : MemeCaption).id ≠ "z") ∧
    ((updateCaption "z" { text := some "changed" }
      [⟨"a", "t1", 1, 2, "#FFFFFF", 32, false⟩,
       ⟨"b", "t2", 3, 4, "#FF0000", 40, false⟩])[0]? =
      some ⟨"a", "t1", 1, 2, "#FFFFFF", 32, false⟩) ∧
    ((∀ c ∈ ([⟨"a", "t1", 1, 2, "#FFFFFF", 32, false⟩,
       ⟨"b", "t2", 3, 4, "#FF0000", 40, false⟩] : List MemeCaption), c.id ≠ "z") ∧
      updateCaption "z" { text := some "changed" }
        [⟨"a", "t1", 1, 2, "#FFFFFF", 32, false⟩,
         ⟨"b", "t2", 3, 4, "#FF0000", 40, false⟩] =
        [⟨"a", "t1", 1, 2, "#FFFFFF", 32, false⟩,
         ⟨"b", "t2", 3, 4, "#FF0000", 40, false⟩]) := by
  have hall : ∀ c ∈ ([⟨"a", "t1", 1, 2, "#FFFFFF", 32, false⟩,
      ⟨"b", "t2", 3, 4, "#FF0000", 40, false⟩] : List MemeCaption), c.id ≠ "z" := by
    decide
  refine ⟨rfl, by decide, ?_, hall, ?_⟩
  · exact (C10_updateCaption_frame "z" { text := some "changed" } _).2.1 0 _ rfl (by decide)
  · exact (C10_updateCaption_frame "z" { text := some "changed" } _).2.2 hall
